import Mathlib

set_option maxHeartbeats 1000000

/-!
Shallow embedding of `src/api/index.py`, a small Flask gateway that
orchestrates a remote hair-swap model: image preprocessing
(`download_resize_upload`), an artifact relay (`upload_local_file`),
and the endpoint handler (`process_hair_swap`).  Python values flowing
through the handler are modelled by the `Json` type below; external
collaborators (HTTP transport, image decoding, the remote inference
client) are oracles collected in an `Env` structure; the local file
system and the request-scoped mutable lists are explicit state.
-/

/-- Model of the Python/JSON values the handler manipulates.
`num` carries an `Int`; non-integral JSON numbers do not occur in the
claims under study and are outside the model.  `obj` is an association
list standing for a Python `dict` (first binding wins on lookup). -/
inductive Json where
  | null
  | bool (b : Bool)
  | num (n : Int)
  | str (s : String)
  | arr (items : List Json)
  | obj (kvs : List (String × Json))

/-- Python truthiness of a modelled value (`bool(x)`): `None`, `False`,
`0`, `""`, `[]` and `{}` are falsy, everything else is truthy. -/
def Json.truthy : Json → Bool
  | .null => false
  | .bool b => b
  | .num n => n != 0
  | .str s => s != ""
  | .arr items => !items.isEmpty
  | .obj kvs => !kvs.isEmpty

/-- Python `a or b`: returns `a` when truthy, otherwise `b`. -/
def pyOr (a b : Json) : Json := if a.truthy then a else b

/-- Python type name of a modelled value, used in error messages. -/
def pyTypeName : Json → String
  | .null => "NoneType"
  | .bool _ => "bool"
  | .num _ => "int"
  | .str _ => "str"
  | .arr _ => "list"
  | .obj _ => "dict"

mutual

/-- Python `repr`/`str` of a modelled value, as used by the f-string in
`raise Exception(f"Unexpected swap output format: {swap_output}")`.
String escaping inside the repr is not modelled. -/
def pyRepr : Json → String
  | .null => "None"
  | .bool true => "True"
  | .bool false => "False"
  | .num n => toString n
  | .str s => "\x27" ++ s ++ "\x27"
  | .arr items => "[" ++ pyReprArr items ++ "]"
  | .obj kvs => "\x7b" ++ pyReprObj kvs ++ "\x7d"

/-- Comma-separated reprs of list elements. -/
def pyReprArr : List Json → String
  | [] => ""
  | [x] => pyRepr x
  | x :: y :: rest => pyRepr x ++ ", " ++ pyReprArr (y :: rest)

/-- Comma-separated reprs of dict entries. -/
def pyReprObj : List (String × Json) → String
  | [] => ""
  | [(k, v)] => "\x27" ++ k ++ "\x27: " ++ pyRepr v
  | (k, v) :: e :: rest => "\x27" ++ k ++ "\x27: " ++ pyRepr v ++ ", " ++ pyReprObj (e :: rest)

end

/-! ## Python string primitives

The source uses `str.startswith`, the `in` operator and `str.replace`
(which replaces every occurrence).  They are modelled over `List Char`
and wrapped for `String`. -/

/-- `prefB p s` is true when the character list `p` is a prefix of `s`. -/
def prefB : List Char → List Char → Bool
  | [], _ => true
  | _ :: _, [] => false
  | a :: as, b :: bs => a == b && prefB as bs

/-- `occursIn p s` is Python `p in s`: `p` occurs contiguously in `s`. -/
def occursIn (p : List Char) : List Char → Bool
  | [] => prefB p []
  | c :: rest => prefB p (c :: rest) || occursIn p rest

/-- Python `s.replace(old, new)` on character lists, written with
explicit fuel so that it is structurally recursive (each step consumes
at least one character, so fuel equal to the list length — what
`replSeq` passes — never runs out): every occurrence of `old`, scanning
left to right, is replaced by `new`.  An empty `old` pattern leaves the
input unchanged (the source only ever replaces a fixed non-empty
pattern). -/
def replGo (pat rep : List Char) : Nat → List Char → List Char
  | _, [] => []
  | 0, s => s
  | fuel + 1, c :: rest =>
    if prefB pat (c :: rest) && !pat.isEmpty then
      rep ++ replGo pat rep fuel (rest.drop (pat.length - 1))
    else
      c :: replGo pat rep fuel rest

/-- Python `s.replace(old, new)` on character lists. -/
def replSeq (pat rep s : List Char) : List Char := replGo pat rep s.length s

/-- Python `s.startswith(p)`. -/
def strStarts (s p : String) : Bool := prefB p.data s.data

/-- Python `p in s` for strings. -/
def strContains (s p : String) : Bool := occursIn p.data s.data

/-- Python `s.replace(old, new)` for strings. -/
def pyReplace (s old new : String) : String := String.mk (replSeq old.data new.data s.data)

/-- The tmpfiles.org landing-page origin checked by the source. -/
def tmpBase : String := "https://tmpfiles.org/"

/-- The direct-download origin substituted by the source. -/
def tmpBaseDl : String := "https://tmpfiles.org/dl/"

/-- The download-path marker checked by the source. -/
def dlSeg : String := "/dl/"

/-- URL normalization from `upload_local_file` (lines 79-80) and
`download_resize_upload` (lines 52-53): a tmpfiles.org URL without the
`/dl/` marker has every occurrence of the origin rewritten to the
direct-download origin. -/
def normalizeUrl (u : String) : String :=
  if strStarts u tmpBase && !(strContains u dlSeg) then pyReplace u tmpBase tmpBaseDl else u

/-- The `isinstance(url, str)` guard around normalization: non-string
values bypass it. -/
def normalizeJson : Json → Json
  | .str s => .str (normalizeUrl s)
  | other => other

/-! ## Swap-result extraction (lines 137-145 of `process_hair_swap`) -/

/-- The filter of the generator expression on line 139: the item is a
dict, its `visible` entry is truthy, and it has a `value` key. -/
def qualifiesB : Json → Bool
  | .obj kvs => ((kvs.lookup "visible").getD .null).truthy && (kvs.lookup "value").isSome
  | _ => false

/-- `next((item[\x27value\x27] for item in swap_output if ...), None)`:
the `value` of the first qualifying descriptor, if any. -/
def firstQualifying : List Json → Option Json
  | [] => none
  | .obj kvs :: rest =>
    if ((kvs.lookup "visible").getD .null).truthy && (kvs.lookup "value").isSome then
      kvs.lookup "value"
    else firstQualifying rest
  | _ :: rest => firstQualifying rest

/-- `true` exactly on modelled sequences (Python `tuple`/`list`). -/
def isSeqJson : Json → Bool
  | .arr _ => true
  | _ => false

/-- Lines 137-145: a sequence response selects the first qualifying
descriptor's value and raises when that value (or the absence of any
qualifying descriptor, giving `None`) is falsy; any other response is
used directly. -/
def extract_swap_result (swap_output : Json) : Except String Json :=
  match swap_output with
  | .arr items =>
    let swapped_local := (firstQualifying items).getD .null
    if !swapped_local.truthy then
      .error ("Unexpected swap output format: " ++ pyRepr swap_output)
    else
      .ok swapped_local
  | other => .ok other

/-! ## Upload-endpoint response handling

`download_resize_upload` (lines 40-53) and `upload_local_file`
(lines 67-80) contain the same response-handling code; each is
translated separately below so their extensional equality can be
stated.  An HTTP response is modelled by its status code, its body
text, and the result of attempting to parse the body as JSON (`none`
models `resp.json()` raising `ValueError`). -/

/-- An HTTP response from the upload endpoint. -/
structure HttpResp where
  status : Nat
  text : String
  json : Option Json

/-- Python `x.get(k)` with a raised `AttributeError` when the receiver
is not a dict; a missing key yields `None`. -/
def pyGetAttr (j : Json) (k : String) : Except String Json :=
  match j with
  | .obj kvs => .ok ((kvs.lookup k).getD .null)
  | other => .error ("AttributeError: " ++ pyTypeName other ++ " object has no attribute get (key " ++ k ++ ")")

/-- Python `x.get(k, d)` with a raised `AttributeError` when the
receiver is not a dict. -/
def pyGetAttrD (j : Json) (k : String) (d : Json) : Except String Json :=
  match j with
  | .obj kvs => .ok ((kvs.lookup k).getD d)
  | other => .error ("AttributeError: " ++ pyTypeName other ++ " object has no attribute get (key " ++ k ++ ")")

/-- Lines 45-48 / 72-75: `result.get(\x27data\x27, \x7b\x7d).get(\x27url\x27) or
result.get(\x27url\x27) or result.get(\x27link\x27) or result`.  Only
`ValueError` is caught by the surrounding `try`, so an `AttributeError`
from a non-dict receiver propagates. -/
def extractUploadUrl (result : Json) : Except String Json := do
  let dataVal ← pyGetAttrD result "data" (.obj [])
  let durl ← pyGetAttr dataVal "url"
  let turl ← pyGetAttr result "url"
  let tlink ← pyGetAttr result "link"
  return pyOr durl (pyOr turl (pyOr tlink result))

/-- Lines 40-53 of `download_resize_upload`: status check, JSON/text
extraction, `/dl/` normalization. -/
def druHandleResp (resp : HttpResp) : Except String Json := do
  if resp.status != 200 then
    throw ("Upload failed: " ++ toString resp.status ++ ": " ++ resp.text)
  let uploaded_url ←
    match resp.json with
    | some result => extractUploadUrl result
    | none => pure (Json.str resp.text.trim)
  return normalizeJson uploaded_url

/-- Lines 67-80 of `upload_local_file`: status check, JSON/text
extraction, `/dl/` normalization. -/
def ulfHandleResp (resp : HttpResp) : Except String Json := do
  if resp.status != 200 then
    throw ("Upload failed: " ++ toString resp.status ++ ": " ++ resp.text)
  let url ←
    match resp.json with
    | some result => extractUploadUrl result
    | none => pure (Json.str resp.text.trim)
  return normalizeJson url

/-- Python `int(x)` on a modelled value: ints pass through, strings are
parsed as (optionally signed) decimal integers, bools become 0/1,
everything else raises. -/
def pyInt : Json → Except String Int
  | .num n => .ok n
  | .str s =>
    match s.trim.toInt? with
    | some n => .ok n
    | none => .error ("invalid literal for int() with base 10: " ++ s)
  | .bool b => .ok (if b then 1 else 0)
  | other => .error ("int() argument must be a string, a bytes-like object or a real number, not " ++ pyTypeName other)

/-! ## External collaborators, local file system, request state

The three preprocessing pipelines are submitted to a thread pool and
joined in order (lines 116-122); the embedding runs them sequentially
(face, then shape, then color), one linearization of the fan-out /
fan-in.  External collaborators are oracles in `Env`; the local file
system and the request-scoped `local_files` list are explicit state. -/

/-- A decoded image: PIL mode plus pixel dimensions. -/
structure Img where
  mode : String
  width : Nat
  height : Nat

/-- `img.convert(\x27RGB\x27)` (line 30). -/
def Img.convertRGB (img : Img) : Img := { img with mode := "RGB" }

/-- `img.resize((w, h))` (line 31): simple scaling, no aspect-ratio
preservation. -/
def Img.resize (img : Img) (w h : Nat) : Img := { img with width := w, height := h }

/-- A response to `requests.get`.  The source reads only `content` and
never inspects the status (there is no `raise_for_status`). -/
structure GetResp where
  status : Nat
  content : String

/-- Contents of a modelled local file: the resized image written by
`download_resize_upload`, or an opaque blob (remote-call outputs). -/
inductive FileContent where
  | image (img : Img)
  | blob

/-- The local file system: file name to contents, no duplicate names. -/
abbrev FS := List (String × FileContent)

/-- `os.path.isfile`. -/
def isFile (fs : FS) (name : String) : Bool := fs.any (fun e => e.1 == name)

/-- `os.remove` (on an existing file). -/
def removeFile (fs : FS) (name : String) : FS := fs.filter (fun e => e.1 != name)

/-- Writing a file (overwrites any previous file of the same name). -/
def saveFile (fs : FS) (name : String) (c : FileContent) : FS := (name, c) :: removeFile fs name

/-- One outbound call to an external collaborator, recorded so the
claims about which services a request contacts can be stated. -/
inductive CallRec where
  | httpGet (url : String)
  | httpPost (path : String)
  | resize (apiName : String) (url : String)
  | swap (face shape color : String) (blending : Json) (poisson_iters poisson_erosion : Int)

/-- Oracles for the external collaborators: process resident memory at
the k-th guard check, the HTTP transport for `requests.get` (an
`Except.error` is a transport failure), the image decoder, the upload
endpoint keyed by uploaded file name, and the two remote procedures of
the inference client.  `predictSwap` also reports which local files the
remote client wrote (its file outputs). -/
structure Env where
  rssMB : Nat → Nat
  httpGet : String → Except String GetResp
  decode : String → Option Img
  upload : String → Except String HttpResp
  predictResize : String → String → Except String String
  predictSwap : String → String → String → Json → Int → Int → Except String (Json × List String)

/-- Request-processing state: the file system, how many memory-guard
checks have run, the recorded outbound calls (newest first), and the
`local_files` list of line 97. -/
structure St where
  fs : FS
  guardCount : Nat
  calls : List CallRec
  localFiles : List Json

/-- Record an outbound call. -/
def recordCall (st : St) (r : CallRec) : St := { st with calls := r :: st.calls }

/-- A pipeline failure: a caught Python exception message, or the
`SIGKILL` of the memory guard, which aborts the process with no
response and no `finally` cleanup. -/
inductive PErr where
  | exn (msg : String)
  | killed

/-- Line 15. -/
def MEMORY_THRESHOLD_MB : Nat := 900

/-- `ensure_memory_or_restart` (lines 18-22): read resident memory; over
the threshold, `os.kill(os.getpid(), signal.SIGKILL)`. -/
def ensure_memory_or_restart (env : Env) (st : St) : Except PErr Unit × St :=
  let st1 : St := { st with guardCount := st.guardCount + 1 }
  if env.rssMB st.guardCount > MEMORY_THRESHOLD_MB then (.error .killed, st1)
  else (.ok (), st1)

/-- Lines 30-31: `Image.open(BytesIO(content)).convert(\x27RGB\x27)`
then `.resize((480, 480))`; `none` models a decoding failure. -/
def decodeConvertResize (decode : String → Option Img) (content : String) : Option Img :=
  (decode content).map (fun img => (img.convertRGB).resize 480 480)

/-- `download_resize_upload` (lines 25-56).  `requests.get` does not
check the response status; the body is decoded regardless.  The
temporary file is written before the upload and removed only after the
whole upload step has succeeded. -/
def download_resize_upload (env : Env) (url : Json) (st : St) : Except PErr Json × St :=
  match url with
  | .str u =>
    let st := recordCall st (.httpGet u)
    match env.httpGet u with
    | .error e => (.error (.exn e), st)
    | .ok response =>
      match decodeConvertResize env.decode response.content with
      | none => (.error (.exn "cannot identify image file"), st)
      | some img_resized =>
        let st := { st with fs := saveFile st.fs "temp_resized.jpg" (.image img_resized) }
        let st := recordCall st (.httpPost "temp_resized.jpg")
        match env.upload "temp_resized.jpg" with
        | .error e => (.error (.exn e), st)
        | .ok resp =>
          match druHandleResp resp with
          | .error e => (.error (.exn e), st)
          | .ok uploaded_url =>
            let st := { st with fs := removeFile st.fs "temp_resized.jpg" }
            (.ok uploaded_url, st)
  | other => (.error (.exn ("requests.get: invalid url of type " ++ pyTypeName other)), st)

/-- `upload_local_file` (lines 59-82): open the local file (raising when
it does not exist or the path is not a string), POST it, handle the
response. -/
def upload_local_file (env : Env) (local_path : Json) (st : St) : Except PErr Json × St :=
  match local_path with
  | .str p =>
    if isFile st.fs p then
      let st := recordCall st (.httpPost p)
      match env.upload p with
      | .error e => (.error (.exn e), st)
      | .ok resp =>
        match ulfHandleResp resp with
        | .error e => (.error (.exn e), st)
        | .ok url => (.ok url, st)
    else (.error (.exn ("No such file or directory: " ++ p)), st)
  | other => (.error (.exn ("open: invalid path of type " ++ pyTypeName other)), st)

/-- `process_image` (lines 99-114): guard, preprocess, remote
resize/align (whose output file the remote client writes locally and
which is appended to `local_files`), then relay the output.  The
constant `align=["Face", "Shape", "Color"]` argument is not recorded. -/
def process_image (env : Env) (url : Json) (apiName : String) (st : St) : Except PErr Json × St :=
  match ensure_memory_or_restart env st with
  | (.error e, st) => (.error e, st)
  | (.ok _, st) =>
    match download_resize_upload env url st with
    | (.error e, st) => (.error e, st)
    | (.ok resized_url, st) =>
      match resized_url with
      | .str ru =>
        let st := recordCall st (.resize apiName ru)
        match env.predictResize apiName ru with
        | .error e => (.error (.exn e), st)
        | .ok output_path =>
          let st := { st with fs := saveFile st.fs output_path .blob }
          let st := { st with localFiles := st.localFiles ++ [.str output_path] }
          upload_local_file env (.str output_path) st
      | other => (.error (.exn ("file(): invalid url of type " ++ pyTypeName other)), st)

/-- Lines 131-133: the keyword arguments of the swap call — `data.get`
with a default for each, and `int(...)` conversion of the two tuning
parameters (which may raise, aborting before the remote call). -/
def swapParams (kvs : List (String × Json)) : Except String (Json × Int × Int) := do
  let blending := (kvs.lookup "blending").getD (.str "Article")
  let poisson_iters ← pyInt ((kvs.lookup "poisson_iters").getD (.num 2500))
  let poisson_erosion ← pyInt ((kvs.lookup "poisson_erosion").getD (.num 100))
  return (blending, poisson_iters, poisson_erosion)

/-- The body of the `try` block (lines 98-150): the three preprocessing
pipelines (sequentialized), the second guard, the remote swap call, the
result extraction, and the relay of the final artifact. -/
def tryBody (env : Env) (kvs : List (String × Json)) (face_url shape_url color_url : Json)
    (st : St) : Except PErr Json × St :=
  match process_image env face_url "/resize_inner" st with
  | (.error e, st) => (.error e, st)
  | (.ok face_dl_url, st) =>
    match process_image env shape_url "/resize_inner_1" st with
    | (.error e, st) => (.error e, st)
    | (.ok shape_dl_url, st) =>
      match process_image env color_url "/resize_inner_2" st with
      | (.error e, st) => (.error e, st)
      | (.ok color_dl_url, st) =>
        match ensure_memory_or_restart env st with
        | (.error e, st) => (.error e, st)
        | (.ok _, st) =>
          match face_dl_url, shape_dl_url, color_dl_url with
          | .str fu, .str su, .str cu =>
            match swapParams kvs with
            | .error e => (.error (.exn e), st)
            | .ok (blending, poisson_iters, poisson_erosion) =>
              let st := recordCall st (.swap fu su cu blending poisson_iters poisson_erosion)
              match env.predictSwap fu su cu blending poisson_iters poisson_erosion with
              | .error e => (.error (.exn e), st)
              | .ok (swap_output, created) =>
                let st := { st with fs := created.foldl (fun acc p => saveFile acc p .blob) st.fs }
                match extract_swap_result swap_output with
                | .error e => (.error (.exn e), st)
                | .ok swapped_local =>
                  let st := { st with localFiles := st.localFiles ++ [swapped_local] }
                  upload_local_file env swapped_local st
          | _, _, _ => (.error (.exn "file(): swap input url is not a string"), st)

/-- One iteration of the cleanup loop (lines 159-164):
`if path and os.path.isfile(path): os.remove(path)`, with only
`OSError` swallowed.  A falsy path short-circuits the `and` and is
skipped; a non-empty string path is removed when it exists; a truthy
non-string path makes `os.path.isfile` raise `TypeError`, which the
`except OSError` clause does not catch (second component `some msg`). -/
def cleanupOne (fs : FS) (path : Json) : FS × Option String :=
  match path with
  | .str s => (if s != "" && isFile fs s then removeFile fs s else fs, none)
  | p =>
    if p.truthy then
      (fs, some ("TypeError: argument should be a str or an os.PathLike object, not "
        ++ pyTypeName p))
    else (fs, none)

/-- The `finally` block (lines 157-164): removal of every path recorded
in `local_files`, aborting the loop at the first uncaught `TypeError`
(whose message is the second component). -/
def cleanupAll (fs : FS) : List Json → FS × Option String
  | [] => (fs, none)
  | p :: rest =>
    match cleanupOne fs p with
    | (fs2, none) => cleanupAll fs2 rest
    | (fs2, some e) => (fs2, some e)

/-- The observable outcome of one request: an HTTP response with a JSON
body, the memory guard killing the process (no response at all), or an
exception escaping the handler, which Flask turns into its generic
error page rather than the handler's JSON forms (a non-dict JSON body
makes `data.get` raise `AttributeError` on line 91 before the `try`;
a truthy non-string path makes the `finally` block raise `TypeError`,
discarding the pending response). -/
inductive Outcome where
  | resp (status : Nat) (body : Json)
  | killed
  | uncaught (msg : String)

/-- Line 95. -/
def validationErrorMsg : String := "face_url, shape_url, and color_url are required"

/-- A pending `return` wrapped by the `finally` block (lines 157-164):
the cleanup loop runs first; if it raises the `TypeError`, the pending
response is discarded and the exception escapes the handler. -/
def finishResponse (o : Outcome) (st : St) : Outcome × St :=
  match cleanupAll st.fs st.localFiles with
  | (fs2, none) => (o, { st with fs := fs2 })
  | (fs2, some e) => (.uncaught e, { st with fs := fs2 })

/-- The `POST /process-hair-swap` handler (lines 85-164): guard, body
parse and validation, `local_files = []`, the `try` body, and the
`except`/`finally` clauses.  `request.get_json(force=True)` is the
`data` argument; a malformed body (Flask raising before the handler
body runs) is outside the model. -/
def process_hair_swap (env : Env) (data : Json) (st0 : St) : Outcome × St :=
  match ensure_memory_or_restart env st0 with
  | (.error _, st) => (.killed, st)
  | (.ok _, st) =>
    match data with
    | .obj kvs =>
      let face_url := (kvs.lookup "face_url").getD .null
      let shape_url := (kvs.lookup "shape_url").getD .null
      let color_url := (kvs.lookup "color_url").getD .null
      if !(face_url.truthy && shape_url.truthy && color_url.truthy) then
        (.resp 400 (.obj [("error", .str validationErrorMsg)]), st)
      else
        let st := { st with localFiles := [] }
        match tryBody env kvs face_url shape_url color_url st with
        | (.ok swapped_dl_url, st) =>
          finishResponse (.resp 200 (.obj [("result_url", swapped_dl_url)])) st
        | (.error (.exn e), st) =>
          finishResponse (.resp 500 (.obj [("error", .str e)])) st
        | (.error .killed, st) => (.killed, st)
    | other => (.uncaught ("AttributeError: " ++ pyTypeName other ++ " object has no attribute get"), st)

/-- The success form claim C1 describes: HTTP 200 with a body that is
exactly one `result_url` key holding a string. -/
def outcomeIs200StrResult : Outcome → Bool
  | .resp 200 (.obj [("result_url", .str _)]) => true
  | _ => false

/-- HTTP 200 with a body that is exactly one `result_url` key (of any
value). -/
def outcomeIs200Result : Outcome → Bool
  | .resp 200 (.obj [("result_url", _)]) => true
  | _ => false

/-- HTTP 500 with a body that is exactly one `error` string. -/
def outcomeIs500Error : Outcome → Bool
  | .resp 500 (.obj [("error", .str _)]) => true
  | _ => false

/-- HTTP 400 with a body that is exactly one `error` string. -/
def outcomeIs400Error : Outcome → Bool
  | .resp 400 (.obj [("error", .str _)]) => true
  | _ => false

/-! ## Lemmas about the string primitives -/

/-- A prefix of `a` is a prefix of `a ++ b`. -/
theorem prefB_append {p a : List Char} (b : List Char) (h : prefB p a = true) :
    prefB p (a ++ b) = true := by
  induction p generalizing a with
  | nil => rfl
  | cons x xs ih =>
    cases a with
    | nil => simp [prefB] at h
    | cons y ys =>
      simp only [List.cons_append, prefB, Bool.and_eq_true] at h ⊢
      exact ⟨h.1, ih h.2⟩

/-- The empty pattern occurs in every string. -/
theorem occursIn_nil_pat : ∀ b, occursIn [] b = true
  | [] => rfl
  | _ :: _ => by simp [occursIn, prefB]

/-- An occurrence in `a` is an occurrence in `a ++ b`. -/
theorem occursIn_append_left {p a : List Char} (b : List Char) (h : occursIn p a = true) :
    occursIn p (a ++ b) = true := by
  induction a with
  | nil =>
    have hp : p = [] := by
      cases p with
      | nil => rfl
      | cons x xs => simp [occursIn, prefB] at h
    subst hp
    exact occursIn_nil_pat b
  | cons c rest ih =>
    simp only [occursIn, Bool.or_eq_true] at h
    rcases h with h | h
    · simp only [List.cons_append, occursIn, Bool.or_eq_true]
      exact Or.inl (prefB_append b h)
    · simp only [List.cons_append, occursIn, Bool.or_eq_true]
      exact Or.inr (ih h)

/-- Replacing the tmpfiles origin in a string that starts with it
produces a string containing the `/dl/` marker. -/
theorem replStart_contains (l : List Char) (h : prefB tmpBase.data l = true) :
    occursIn dlSeg.data (replSeq tmpBase.data tmpBaseDl.data l) = true := by
  cases l with
  | nil => exact absurd h (by decide)
  | cons c rest =>
    have hc : (prefB tmpBase.data (c :: rest) && !tmpBase.data.isEmpty) = true := by
      rw [h]
      decide
    show occursIn dlSeg.data
      (replGo tmpBase.data tmpBaseDl.data (c :: rest).length (c :: rest)) = true
    rw [List.length_cons, replGo, if_pos hc]
    exact occursIn_append_left _ (by decide)

/-- Claim C7: URL normalization is idempotent, and an already-normalized
direct-download URL (one containing the `/dl/` marker) is returned
unchanged. -/
theorem c7_normalize_idempotent :
    (∀ u, normalizeUrl (normalizeUrl u) = normalizeUrl u)
    ∧ (∀ u, strContains u dlSeg = true → normalizeUrl u = u) := by
  constructor
  · intro u
    unfold normalizeUrl
    by_cases h : (strStarts u tmpBase && !strContains u dlSeg) = true
    · rw [if_pos h]
      have h1 : strStarts u tmpBase = true := ((Bool.and_eq_true _ _).mp h).1
      have h2 : strContains (pyReplace u tmpBase tmpBaseDl) dlSeg = true := by
        show occursIn dlSeg.data (replSeq tmpBase.data tmpBaseDl.data u.data) = true
        exact replStart_contains u.data h1
      simp [h2]
    · rw [if_neg h, if_neg h]
  · intro u h
    unfold normalizeUrl
    simp [h]

/-- Whether an `Except` computation succeeded. -/
def isOkE {e a : Type} : Except e a → Bool
  | .ok _ => true
  | .error _ => false

/-- Claim C10: the upload-response handling of `download_resize_upload`
and of `upload_local_file` is extensionally equal — on every response
the two either raise failures carrying the same status and body or
extract and normalize the same URL value. -/
theorem c10_upload_handling_eq (resp : HttpResp) : druHandleResp resp = ulfHandleResp resp := rfl

/-- No descriptor qualifies exactly when the generator of line 139
selects nothing. -/
theorem firstQualifying_none_iff (items : List Json) :
    firstQualifying items = none ↔ ∀ item ∈ items, qualifiesB item = false := by
  induction items with
  | nil => simp [firstQualifying]
  | cons item rest ih =>
    cases item with
    | obj kvs =>
      simp only [firstQualifying]
      split
      · next hq =>
        constructor
        · intro h
          have hsome : (kvs.lookup "value").isSome = true := ((Bool.and_eq_true _ _).mp hq).2
          rw [h] at hsome
          cases hsome
        · intro h
          have := h (.obj kvs) (List.mem_cons_self _ _)
          rw [qualifiesB] at this
          rw [hq] at this
          cases this
      · next hq =>
        rw [ih]
        constructor
        · intro h item hmem
          rcases List.mem_cons.mp hmem with rfl | hmem
          · rw [qualifiesB]
            exact Bool.not_eq_true _ ▸ (Bool.of_not_eq_true hq)
          · exact h item hmem
        · intro h item hmem
          exact h item (List.mem_cons_of_mem _ hmem)
    | null => simpa [firstQualifying, qualifiesB] using ih
    | bool b => simpa [firstQualifying, qualifiesB] using ih
    | num n => simpa [firstQualifying, qualifiesB] using ih
    | str s => simpa [firstQualifying, qualifiesB] using ih
    | arr xs => simpa [firstQualifying, qualifiesB] using ih

/-- Claim C4 (amended): over a sequence response, the extraction selects
the value of the first descriptor that is a dict with a truthy `visible`
entry and a `value` key; it raises the unexpected-shape error exactly
when no descriptor qualifies or when the selected value is itself falsy;
a non-sequence response is used directly as the result reference. -/
theorem c4_swap_extraction :
    (∀ items v, firstQualifying items = some v → v.truthy = true →
        extract_swap_result (.arr items) = .ok v)
    ∧ (∀ items v, firstQualifying items = some v → v.truthy = false →
        extract_swap_result (.arr items)
          = .error ("Unexpected swap output format: " ++ pyRepr (.arr items)))
    ∧ (∀ items, (∀ item ∈ items, qualifiesB item = false) →
        extract_swap_result (.arr items)
          = .error ("Unexpected swap output format: " ++ pyRepr (.arr items)))
    ∧ (∀ j, isSeqJson j = false → extract_swap_result j = .ok j) := by
  refine ⟨?_, ?_, ?_, ?_⟩
  · intro items v h ht
    simp [extract_swap_result, h, ht]
  · intro items v h ht
    simp [extract_swap_result, h, ht]
  · intro items h
    have h0 : firstQualifying items = none := (firstQualifying_none_iff items).mpr h
    simp [extract_swap_result, h0, Json.truthy]
  · intro j hj
    cases j <;> simp_all [extract_swap_result, isSeqJson]

/-- Witness for C4's theorem at a concrete input: a two-descriptor
response whose second descriptor is the first qualifying one. -/
theorem c4_swap_extraction_witness :
    extract_swap_result (.arr [.obj [("visible", .bool false), ("value", .str "a.png")],
                               .obj [("visible", .bool true), ("value", .str "b.png")]])
      = .ok (.str "b.png") :=
  c4_swap_extraction.1 _ (.str "b.png") rfl rfl

/-- Counterexample to claim C4 as stated: the descriptor below is
visible and carries a `value` key — it qualifies — yet the extraction
raises, because the carried value is falsy (the empty string). -/
theorem c4_counterexample :
    qualifiesB (.obj [("visible", .bool true), ("value", .str "")]) = true
    ∧ isOkE (extract_swap_result (.arr [.obj [("visible", .bool true), ("value", .str "")]]))
        = false :=
  ⟨rfl, rfl⟩

/-- The priority rule the spec describes for upload-URL extraction: the
first truthy candidate, else the fallback value. -/
def specPriorityPick (cands : List Json) (fallback : Json) : Json :=
  match cands with
  | [] => fallback
  | c :: rest => if c.truthy then c else specPriorityPick rest fallback

/-- Claim C6 (amended): on a success-status upload response, a body that
does not parse as JSON yields the trimmed body text (then normalized);
a body that parses as a JSON object whose `data` entry (when present)
is itself an object yields, in priority order, the first truthy one of
`data.url`, `url`, `link`, falling back to the whole parsed object —
then normalized.  (When the parsed body, or its `data` entry, is not an
object, the code instead raises `AttributeError`; see the
counterexample.) -/
theorem c6_upload_extraction :
    (∀ resp : HttpResp, resp.status = 200 → resp.json = none →
        ulfHandleResp resp = .ok (normalizeJson (.str resp.text.trim)))
    ∧ (∀ (resp : HttpResp) (kvs dk : List (String × Json)),
        resp.status = 200 → resp.json = some (.obj kvs) →
        (kvs.lookup "data").getD (.obj []) = .obj dk →
        ulfHandleResp resp
          = .ok (normalizeJson (specPriorityPick
              [((dk.lookup "url").getD .null),
               ((kvs.lookup "url").getD .null),
               ((kvs.lookup "link").getD .null)]
              (.obj kvs)))) := by
  constructor
  · intro resp h200 hjson
    simp [ulfHandleResp, h200, hjson, pure, Except.pure, bind, Except.bind]
  · intro resp kvs dk h200 hjson hdata
    simp [ulfHandleResp, h200, hjson, extractUploadUrl, pyGetAttrD, pyGetAttr, hdata,
      specPriorityPick, pyOr, bind, Except.bind, pure, Except.pure]

/-- Witness for C6's theorem: a response carrying all three candidate
fields, where the nested `data.url` wins. -/
theorem c6_upload_extraction_witness :
    ulfHandleResp { status := 200, text := "ignored",
                    json := some (.obj [("data", .obj [("url", .str "https://a/1")]),
                                        ("url", .str "https://b/2"),
                                        ("link", .str "https://c/3")]) }
      = .ok (.str "https://a/1") :=
  c6_upload_extraction.2 _ _ [("url", .str "https://a/1")] rfl rfl rfl

/-- Counterexample to claim C6 as stated: a success response whose body
parses as a JSON array.  The claim says extraction falls back to the
raw parsed value; the code instead raises `AttributeError` from
`result.get(\x27data\x27, \x7b\x7d)`. -/
theorem c6_counterexample :
    ulfHandleResp { status := 200, text := "[1, 2]", json := some (.arr [.num 1, .num 2]) }
      = .error "AttributeError: list object has no attribute get (key data)" :=
  rfl

/-! ## Concrete environments used by witnesses and counterexamples -/

/-- An upload response whose JSON body carries a nested `data.url`. -/
def respOkJ : HttpResp :=
  { status := 200, text := "ok",
    json := some (.obj [("data", .obj [("url", .str "https://tmpfiles.org/123/f.jpg")])]) }

/-- A concrete environment in which every collaborator succeeds:
memory stays at 100 MB, every fetch returns decodable bytes, every
upload returns `respOkJ`, and the remote procedures return local file
paths they have written. -/
def envW : Env :=
  { rssMB := fun _ => 100
    httpGet := fun _ => .ok { status := 200, content := "IMG" }
    decode := fun c => if c == "IMG" then some { mode := "P", width := 10, height := 20 } else none
    upload := fun _ => .ok respOkJ
    predictResize := fun api _ => .ok ("out" ++ api ++ ".png")
    predictSwap := fun _ _ _ _ _ _ => .ok (.str "swap_out.png", ["swap_out.png"]) }

/-- A valid request body: the three URLs present and non-empty, no
optional parameters. -/
def dataW : Json :=
  .obj [("face_url", .str "https://x/a.jpg"),
        ("shape_url", .str "https://x/b.jpg"),
        ("color_url", .str "https://x/c.jpg")]

/-- A fresh request state: empty file system, no calls recorded. -/
def stInit : St := { fs := [], guardCount := 0, calls := [], localFiles := [] }

/-- `envW` with resident memory over the 900 MB threshold. -/
def envK : Env := { envW with rssMB := fun _ => 1000 }

/-- `envW` with an upload endpoint that answers HTTP 500. -/
def envLeak : Env := { envW with upload := fun _ => .ok { status := 500, text := "oops", json := none } }

/-- `envW` with a fetch transport that answers HTTP 404, with a body
that still decodes as an image. -/
def env404 : Env := { envW with httpGet := fun _ => .ok { status := 404, content := "IMG" } }

/-- `envW` with a failing fetch transport. -/
def envNetFail : Env := { envW with httpGet := fun _ => .error "ConnectionError" }

/-- `envW` with a final-artifact upload whose JSON body is the empty
object: every candidate field is missing, so the relay's extraction
falls back to the whole parsed object. -/
def envDictUrl : Env :=
  { envW with upload := fun p =>
      if p == "swap_out.png" then .ok { status := 200, text := "\x7b\x7d", json := some (.obj []) }
      else .ok respOkJ }

/-- `envW` with a remote swap returning a bare non-empty dict (such as a
gradio update payload) instead of a file path. -/
def envDictSwap : Env :=
  { envW with predictSwap := fun _ _ _ _ _ _ => .ok (.obj [("interactive", .bool true)], []) }

/-- Claim C5 (amended): the preprocessing step fails when the HTTP
transport fails; it does not inspect the HTTP status — the body is
decoded regardless (a decoding failure raises a decode error); and any
successfully decoded image is converted to RGB and resized to exactly
480x480 before being written and uploaded. -/
theorem c5_preprocessing :
    (∀ (env : Env) (u : String) (st : St) (e : String),
        env.httpGet u = .error e →
        (download_resize_upload env (.str u) st).1 = .error (.exn e))
    ∧ (∀ (env : Env) (u : String) (st : St) (resp : GetResp),
        env.httpGet u = .ok resp → env.decode resp.content = none →
        (download_resize_upload env (.str u) st).1
          = .error (.exn "cannot identify image file"))
    ∧ (∀ (dec : String → Option Img) (content : String) (img : Img),
        decodeConvertResize dec content = some img →
        img.mode = "RGB" ∧ img.width = 480 ∧ img.height = 480) := by
  refine ⟨?_, ?_, ?_⟩
  · intro env u st e h
    simp [download_resize_upload, h]
  · intro env u st resp h hd
    simp [download_resize_upload, h, decodeConvertResize, hd]
  · intro dec content img h
    rw [decodeConvertResize, Option.map_eq_some'] at h
    obtain ⟨i, _, rfl⟩ := h
    exact ⟨rfl, rfl, rfl⟩

/-- Witness for C5's theorem: a concrete transport failure surfaces as
the raised exception. -/
theorem c5_preprocessing_witness :
    (download_resize_upload envNetFail (.str "http://x") stInit).1
      = .error (.exn "ConnectionError") :=
  c5_preprocessing.1 envNetFail "http://x" stInit "ConnectionError" rfl

/-- Counterexample to claim C5 as stated: a fetch answered with HTTP
404 raises no NetworkError — the 404 body is decoded as an image and
the whole preprocessing step succeeds. -/
theorem c5_counterexample :
    env404.httpGet "http://img" = .ok { status := 404, content := "IMG" }
    ∧ (download_resize_upload env404 (.str "http://img") stInit).1
        = .ok (.str "https://tmpfiles.org/dl/123/f.jpg") :=
  ⟨rfl, rfl⟩

/-! ## The memory guard, and kill-freedom of the pipeline under the
threshold -/

/-- Under the threshold, the guard only bumps its counter. -/
theorem guard_eq (env : Env) (st : St)
    (h : env.rssMB st.guardCount ≤ MEMORY_THRESHOLD_MB) :
    ensure_memory_or_restart env st = (.ok (), { st with guardCount := st.guardCount + 1 }) := by
  unfold ensure_memory_or_restart
  rw [if_neg (Nat.not_lt.mpr h)]

/-- Whatever the guard decides, its state effect is only the counter
bump. -/
theorem guard_state (env : Env) (st : St) :
    (ensure_memory_or_restart env st).2 = { st with guardCount := st.guardCount + 1 } := by
  unfold ensure_memory_or_restart
  split <;> rfl

/-- `download_resize_upload` contains no guard check: it never produces
the kill outcome. -/
theorem dru_not_killed (env : Env) (url : Json) (st : St) :
    (download_resize_upload env url st).1 ≠ .error .killed := by
  unfold download_resize_upload
  repeat' split
  all_goals simp

/-- `upload_local_file` contains no guard check: it never produces the
kill outcome. -/
theorem ulf_not_killed (env : Env) (p : Json) (st : St) :
    (upload_local_file env p st).1 ≠ .error .killed := by
  unfold upload_local_file
  repeat' split
  all_goals simp

/-- With resident memory below the threshold at every check,
`process_image` never produces the kill outcome. -/
theorem process_image_not_killed (env : Env) (url : Json) (api : String) (st : St)
    (hmem : ∀ k, env.rssMB k ≤ MEMORY_THRESHOLD_MB) :
    (process_image env url api st).1 ≠ .error .killed := by
  unfold process_image
  split
  · next e stx heq =>
      rw [guard_eq env st (hmem _)] at heq
      simp at heq
  · next u stx heq =>
      split
      · next e sty heq2 =>
          have hdru := dru_not_killed env url stx
          rw [heq2] at hdru
          simpa using hdru
      · next resized sty heq2 =>
          split
          · next ru =>
              split
              · next e heq3 => simp
              · next path heq3 => exact ulf_not_killed env (.str path) _
          · next hnot => simp

/-- With resident memory below the threshold at every check, the `try`
body never produces the kill outcome. -/
theorem tryBody_not_killed (env : Env) (kvs : List (String × Json)) (f s c : Json) (st : St)
    (hmem : ∀ k, env.rssMB k ≤ MEMORY_THRESHOLD_MB) :
    (tryBody env kvs f s c st).1 ≠ .error .killed := by
  unfold tryBody
  split
  · next e st1 heq =>
      have h1 := process_image_not_killed env f "/resize_inner" st hmem
      rw [heq] at h1
      simpa using h1
  · next v1 st1 heq =>
      split
      · next e st2 heq2 =>
          have h2 := process_image_not_killed env s "/resize_inner_1" st1 hmem
          rw [heq2] at h2
          simpa using h2
      · next v2 st2 heq2 =>
          split
          · next e st3 heq3 =>
              have h3 := process_image_not_killed env c "/resize_inner_2" st2 hmem
              rw [heq3] at h3
              simpa using h3
          · next v3 st3 heq3 =>
              split
              · next e st4 heq4 =>
                  rw [guard_eq env st3 (hmem _)] at heq4
                  simp at heq4
              · next u st4 heq4 =>
                  split
                  · next fu su cu =>
                      split
                      · next e heq5 => simp
                      · next trip heq5 =>
                          split
                          · next e heq6 => simp
                          · next pr heq6 =>
                              split
                              · next e heq7 => simp
                              · next sw heq7 => exact ulf_not_killed env sw _
                  · next => simp

/-- The guard does not touch `local_files`. -/
theorem guard_localFiles (env : Env) (st : St) :
    (ensure_memory_or_restart env st).2.localFiles = st.localFiles := by
  rw [guard_state]

/-- `download_resize_upload` does not touch `local_files`. -/
theorem dru_localFiles (env : Env) (url : Json) (st : St) :
    (download_resize_upload env url st).2.localFiles = st.localFiles := by
  unfold download_resize_upload
  repeat' split
  all_goals rfl

/-- `upload_local_file` does not touch `local_files`. -/
theorem ulf_localFiles (env : Env) (p : Json) (st : St) :
    (upload_local_file env p st).2.localFiles = st.localFiles := by
  unfold upload_local_file
  repeat' split
  all_goals rfl

/-- Every entry `process_image` appends to `local_files` is a string
path (line 111 appends `output_path`, a path from the remote client). -/
theorem process_image_localFiles_str (env : Env) (url : Json) (api : String) (st : St) :
    ∀ p ∈ (process_image env url api st).2.localFiles,
      p ∈ st.localFiles ∨ ∃ s2, p = Json.str s2 := by
  intro p hp
  unfold process_image at hp
  split at hp
  · next e stx heq =>
      have hl : stx.localFiles = st.localFiles := by
        have hx := congrArg (fun q => q.2.localFiles) heq
        simpa [guard_localFiles] using hx.symm
      rw [hl] at hp
      exact Or.inl hp
  · next u stx heq =>
      have hl : stx.localFiles = st.localFiles := by
        have hx := congrArg (fun q => q.2.localFiles) heq
        simpa [guard_localFiles] using hx.symm
      split at hp
      · next e sty heq2 =>
          have h3 : sty.localFiles = (download_resize_upload env url stx).2.localFiles := by
            rw [heq2]
          rw [h3, dru_localFiles, hl] at hp
          exact Or.inl hp
      · next resized sty heq2 =>
          have h3 : sty.localFiles = (download_resize_upload env url stx).2.localFiles := by
            rw [heq2]
          split at hp
          · next ru =>
              split at hp
              · next e heq3 =>
                  simp only [recordCall] at hp
                  rw [h3, dru_localFiles, hl] at hp
                  exact Or.inl hp
              · next path heq3 =>
                  rw [ulf_localFiles] at hp
                  simp only [recordCall, List.mem_append, List.mem_singleton] at hp
                  rcases hp with hp | hp
                  · rw [h3, dru_localFiles, hl] at hp
                    exact Or.inl hp
                  · exact Or.inr ⟨path, hp⟩
          · next hnot =>
              rw [h3, dru_localFiles, hl] at hp
              exact Or.inl hp

/-- When the remote swap's extracted result reference is a string (as a
file path from the remote client is), every entry the `try` body
appends to `local_files` is a string path. -/
theorem tryBody_localFiles_str (env : Env) (kvs : List (String × Json)) (f s c : Json)
    (st : St)
    (hswap : ∀ a b c2 bl pi pe out created v,
        env.predictSwap a b c2 bl pi pe = .ok (out, created) →
        extract_swap_result out = .ok v → ∃ s2, v = Json.str s2) :
    ∀ p ∈ (tryBody env kvs f s c st).2.localFiles,
      p ∈ st.localFiles ∨ ∃ s2, p = Json.str s2 := by
  intro p hp
  unfold tryBody at hp
  split at hp
  · next e st1 heq =>
      have h1 : st1.localFiles = (process_image env f "/resize_inner" st).2.localFiles := by
        rw [heq]
      rw [h1] at hp
      exact process_image_localFiles_str env f _ st p hp
  · next v1 st1 heq =>
      have h1 : st1.localFiles = (process_image env f "/resize_inner" st).2.localFiles := by
        rw [heq]
      have back1 : p ∈ st1.localFiles → p ∈ st.localFiles ∨ ∃ s2, p = Json.str s2 := by
        intro h
        rw [h1] at h
        exact process_image_localFiles_str env f _ st p h
      split at hp
      · next e st2 heq2 =>
          have h2 : st2.localFiles
              = (process_image env s "/resize_inner_1" st1).2.localFiles := by
            rw [heq2]
          rw [h2] at hp
          rcases process_image_localFiles_str env s _ st1 p hp with h | h
          · exact back1 h
          · exact Or.inr h
      · next v2 st2 heq2 =>
          have h2 : st2.localFiles
              = (process_image env s "/resize_inner_1" st1).2.localFiles := by
            rw [heq2]
          have back2 : p ∈ st2.localFiles → p ∈ st.localFiles ∨ ∃ s2, p = Json.str s2 := by
            intro h
            rw [h2] at h
            rcases process_image_localFiles_str env s _ st1 p h with h | h
            · exact back1 h
            · exact Or.inr h
          split at hp
          · next e st3 heq3 =>
              have h3 : st3.localFiles
                  = (process_image env c "/resize_inner_2" st2).2.localFiles := by
                rw [heq3]
              rw [h3] at hp
              rcases process_image_localFiles_str env c _ st2 p hp with h | h
              · exact back2 h
              · exact Or.inr h
          · next v3 st3 heq3 =>
              have h3 : st3.localFiles
                  = (process_image env c "/resize_inner_2" st2).2.localFiles := by
                rw [heq3]
              have back3 : p ∈ st3.localFiles → p ∈ st.localFiles ∨ ∃ s2, p = Json.str s2 := by
                intro h
                rw [h3] at h
                rcases process_image_localFiles_str env c _ st2 p h with h | h
                · exact back2 h
                · exact Or.inr h
              split at hp
              · next e st4 heq4 =>
                  have h4 : st4.localFiles = st3.localFiles := by
                    have hx := congrArg (fun q => q.2.localFiles) heq4
                    simpa [guard_localFiles] using hx.symm
                  rw [h4] at hp
                  exact back3 hp
              · next u st4 heq4 =>
                  have h4 : st4.localFiles = st3.localFiles := by
                    have hx := congrArg (fun q => q.2.localFiles) heq4
                    simpa [guard_localFiles] using hx.symm
                  have back4 : p ∈ st4.localFiles →
                      p ∈ st.localFiles ∨ ∃ s2, p = Json.str s2 := by
                    intro h
                    rw [h4] at h
                    exact back3 h
                  split at hp
                  · next fu su cu =>
                      split at hp
                      · next e heq5 => exact back4 hp
                      · next trip heq5 =>
                          split at hp
                          · next e heq6 =>
                              simp only [recordCall] at hp
                              exact back4 hp
                          · next pr heq6 =>
                              split at hp
                              · next e heq7 =>
                                  simp only [recordCall] at hp
                                  exact back4 hp
                              · next sw heq7 =>
                                  rw [ulf_localFiles] at hp
                                  simp only [recordCall, List.mem_append,
                                    List.mem_singleton] at hp
                                  rcases hp with hp | hp
                                  · exact back4 hp
                                  · obtain ⟨s2, hs2⟩ := hswap _ _ _ _ _ _ _ _ _ heq6 heq7
                                    exact Or.inr ⟨s2, hp.trans hs2⟩
                  · next => exact back4 hp

/-- A cleanup loop over string-only paths completes without raising. -/
theorem cleanupAll_strings_none (paths : List Json) :
    ∀ fs, (∀ p ∈ paths, ∃ s, p = Json.str s) → (cleanupAll fs paths).2 = none := by
  induction paths with
  | nil => intro fs h; rfl
  | cons p rest ih =>
      intro fs h
      obtain ⟨s, rfl⟩ := h p (List.mem_cons_self _ _)
      simp only [cleanupAll, cleanupOne]
      exact ih _ (fun q hq => h q (List.mem_cons_of_mem _ hq))

/-- Claim C1 (amended): for a request whose three URL fields are present
non-empty strings, provided the memory guard never fires (resident
memory at or below the threshold at every check) and the remote swap's
extracted result reference is a string file path (as the remote
client's file outputs are — a truthy non-string reference instead makes
the `finally` block raise a `TypeError` that escapes the handler), the
handler produces exactly one of two outcomes — HTTP 200 with a body
holding the single key `result_url` (a string whenever the upload relay
yields a string; the relay's raw-JSON fallback can make it a non-string
value), or HTTP 500 with a body holding a single `error` string; every
exception raised by a pipeline step is caught and converted to the
latter. -/
theorem c1_valid_request_outcomes (env : Env) (kvs : List (String × Json)) (st0 : St)
    (fu su cu : String)
    (hf : kvs.lookup "face_url" = some (.str fu)) (hf0 : fu ≠ "")
    (hs : kvs.lookup "shape_url" = some (.str su)) (hs0 : su ≠ "")
    (hc : kvs.lookup "color_url" = some (.str cu)) (hc0 : cu ≠ "")
    (hmem : ∀ k, env.rssMB k ≤ MEMORY_THRESHOLD_MB)
    (hswap : ∀ a b c2 bl pi pe out created v,
        env.predictSwap a b c2 bl pi pe = .ok (out, created) →
        extract_swap_result out = .ok v → ∃ s2, v = Json.str s2) :
    outcomeIs200Result (process_hair_swap env (.obj kvs) st0).1 = true
    ∨ outcomeIs500Error (process_hair_swap env (.obj kvs) st0).1 = true := by
  unfold process_hair_swap
  split
  · next e st1 heq =>
      rw [guard_eq env st0 (hmem _)] at heq
      simp at heq
  · next u st1 heq =>
      simp only [hf, hs, hc, Option.getD_some, Json.truthy, hf0, hs0, hc0]
      rw [if_neg (by simp [Json.truthy, hf0, hs0, hc0])]
      split
      · next v st2 heq2 =>
          have hstr : ∀ p ∈ st2.localFiles, ∃ s2, p = Json.str s2 := by
            intro p hp
            have h3 : st2.localFiles
                = (tryBody env kvs (.str fu) (.str su) (.str cu)
                    { st1 with localFiles := [] }).2.localFiles := by
              rw [heq2]
            rw [h3] at hp
            rcases tryBody_localFiles_str env kvs _ _ _ _ hswap p hp with h | h
            · simp at h
            · exact h
          have hdone := cleanupAll_strings_none st2.localFiles st2.fs hstr
          left
          unfold finishResponse
          split
          · next fs2 heqc => rfl
          · next fs2 e2 heqc =>
              rw [heqc] at hdone
              cases hdone
      · next e st2 heq2 =>
          have hstr : ∀ p ∈ st2.localFiles, ∃ s2, p = Json.str s2 := by
            intro p hp
            have h3 : st2.localFiles
                = (tryBody env kvs (.str fu) (.str su) (.str cu)
                    { st1 with localFiles := [] }).2.localFiles := by
              rw [heq2]
            rw [h3] at hp
            rcases tryBody_localFiles_str env kvs _ _ _ _ hswap p hp with h | h
            · simp at h
            · exact h
          have hdone := cleanupAll_strings_none st2.localFiles st2.fs hstr
          right
          unfold finishResponse
          split
          · next fs2 heqc => rfl
          · next fs2 e2 heqc =>
              rw [heqc] at hdone
              cases hdone
      · next st2 heq2 =>
          have h1 := tryBody_not_killed env kvs (.str fu) (.str su) (.str cu)
            { st1 with localFiles := [] } hmem
          rw [heq2] at h1
          simp at h1

/-- Witness for C1's theorem: the all-success environment with a valid
request reaches one of the two claimed outcomes. -/
theorem c1_valid_request_outcomes_witness :
    outcomeIs200Result (process_hair_swap envW dataW stInit).1 = true
    ∨ outcomeIs500Error (process_hair_swap envW dataW stInit).1 = true :=
  c1_valid_request_outcomes envW
    [("face_url", .str "https://x/a.jpg"), ("shape_url", .str "https://x/b.jpg"),
     ("color_url", .str "https://x/c.jpg")] stInit
    "https://x/a.jpg" "https://x/b.jpg" "https://x/c.jpg"
    rfl (by decide) rfl (by decide) rfl (by decide)
    (by intro k; show (100 : Nat) ≤ MEMORY_THRESHOLD_MB; decide)
    (by
      intro a b c2 bl pi pe out created v h1 h2
      simp only [envW, Except.ok.injEq, Prod.mk.injEq] at h1
      obtain ⟨h3, -⟩ := h1
      subst h3
      simp only [extract_swap_result, Except.ok.injEq] at h2
      exact ⟨"swap_out.png", h2.symm⟩)

/-- Counterexample to claim C1 as stated, in three parts.  First, with
resident memory over the threshold the guard kills the process and no
response at all is produced.  Second, with the final-artifact upload
answering an empty JSON object, the handler returns 200 whose
`result_url` is the raw parsed object, not a string.  Third, with the
remote swap returning a bare dict instead of a file path, the `finally`
block's `os.path.isfile` raises a `TypeError` that the `except OSError`
clause does not catch: the pending 500 JSON is discarded and neither
claimed outcome is produced. -/
theorem c1_counterexample :
    ((process_hair_swap envK dataW stInit).1 = Outcome.killed
      ∧ outcomeIs200StrResult (process_hair_swap envK dataW stInit).1 = false
      ∧ outcomeIs500Error (process_hair_swap envK dataW stInit).1 = false)
    ∧ ((process_hair_swap envDictUrl dataW stInit).1
          = .resp 200 (.obj [("result_url", .obj [])])
      ∧ outcomeIs200StrResult (process_hair_swap envDictUrl dataW stInit).1 = false)
    ∧ ((process_hair_swap envDictSwap dataW stInit).1
          = .uncaught "TypeError: argument should be a str or an os.PathLike object, not dict"
      ∧ outcomeIs200StrResult (process_hair_swap envDictSwap dataW stInit).1 = false
      ∧ outcomeIs500Error (process_hair_swap envDictSwap dataW stInit).1 = false) :=
  ⟨⟨rfl, rfl, rfl⟩, ⟨rfl, rfl⟩, ⟨rfl, rfl, rfl⟩⟩

/-- When the truthiness test of line 94 fails and the first guard check
passes, the handler answers 400 immediately, leaving the state
untouched except for the guard counter. -/
theorem validation_fails_400 (env : Env) (kvs : List (String × Json)) (st0 : St)
    (hv : (((kvs.lookup "face_url").getD .null).truthy
        && ((kvs.lookup "shape_url").getD .null).truthy
        && ((kvs.lookup "color_url").getD .null).truthy) = false)
    (hmem : env.rssMB st0.guardCount ≤ MEMORY_THRESHOLD_MB) :
    process_hair_swap env (.obj kvs) st0
      = (.resp 400 (.obj [("error", .str validationErrorMsg)]),
         { st0 with guardCount := st0.guardCount + 1 }) := by
  unfold process_hair_swap
  split
  · next e st1 heq =>
      rw [guard_eq env st0 hmem] at heq
      simp at heq
  · next u st1 heq =>
      rw [guard_eq env st0 hmem] at heq
      injection heq with h1 h2
      subst h2
      simp [hv]

/-- Claim C2 (amended): for a request missing any of the three URL
fields, provided the memory guard does not fire at the entry check, the
handler returns 400 with an `error` string and records no outbound
call — neither the remote inference client nor the file-upload endpoint
(nor even the image fetch) is contacted. -/
theorem c2_missing_field_400 (env : Env) (kvs : List (String × Json)) (st0 : St)
    (hmiss : kvs.lookup "face_url" = none ∨ kvs.lookup "shape_url" = none
        ∨ kvs.lookup "color_url" = none)
    (hmem : env.rssMB st0.guardCount ≤ MEMORY_THRESHOLD_MB) :
    (process_hair_swap env (.obj kvs) st0).1
        = .resp 400 (.obj [("error", .str validationErrorMsg)])
    ∧ (process_hair_swap env (.obj kvs) st0).2.calls = st0.calls := by
  have hv : (((kvs.lookup "face_url").getD .null).truthy
      && ((kvs.lookup "shape_url").getD .null).truthy
      && ((kvs.lookup "color_url").getD .null).truthy) = false := by
    rcases hmiss with h | h | h <;> simp [h, Json.truthy]
  rw [validation_fails_400 env kvs st0 hv hmem]
  exact ⟨rfl, rfl⟩

/-- Witness for C2's theorem: the empty request body gets 400 and no
call is recorded. -/
theorem c2_missing_field_400_witness :
    (process_hair_swap envW (.obj []) stInit).1
        = .resp 400 (.obj [("error", .str validationErrorMsg)])
    ∧ (process_hair_swap envW (.obj []) stInit).2.calls = stInit.calls :=
  c2_missing_field_400 envW [] stInit (Or.inl rfl)
    (by show (100 : Nat) ≤ MEMORY_THRESHOLD_MB; decide)

/-- Counterexample to claim C2 as stated: with resident memory over the
threshold, a request with all fields missing is never answered at all —
the guard kills the process before validation, so no 400 is returned. -/
theorem c2_counterexample :
    (process_hair_swap envK (.obj []) stInit).1 = Outcome.killed
    ∧ outcomeIs400Error (process_hair_swap envK (.obj []) stInit).1 = false :=
  ⟨rfl, rfl⟩

/-- Claim C9 (amended): a request in which one of the three URL fields
is present but holds a falsy value (empty string, null, false, or 0) is
treated exactly like one with the field absent — provided the memory
guard does not fire at the entry check, the handler returns the same
400 validation error, because line 94 tests truthiness, not key
presence. -/
theorem c9_falsy_field_400 (env : Env) (kvs : List (String × Json)) (st0 : St) (v : Json)
    (hpresent : kvs.lookup "face_url" = some v ∨ kvs.lookup "shape_url" = some v
        ∨ kvs.lookup "color_url" = some v)
    (hfalsy : v.truthy = false)
    (hmem : env.rssMB st0.guardCount ≤ MEMORY_THRESHOLD_MB) :
    (process_hair_swap env (.obj kvs) st0).1
        = .resp 400 (.obj [("error", .str validationErrorMsg)]) := by
  have hv : (((kvs.lookup "face_url").getD .null).truthy
      && ((kvs.lookup "shape_url").getD .null).truthy
      && ((kvs.lookup "color_url").getD .null).truthy) = false := by
    rcases hpresent with h | h | h <;> simp [h, hfalsy]
  rw [validation_fails_400 env kvs st0 hv hmem]

/-- Witness for C9's theorem: `face_url` present but empty gets the
validation 400. -/
theorem c9_falsy_field_400_witness :
    (process_hair_swap envW
        (.obj [("face_url", .str ""), ("shape_url", .str "https://x/b.jpg"),
               ("color_url", .str "https://x/c.jpg")]) stInit).1
      = .resp 400 (.obj [("error", .str validationErrorMsg)]) :=
  c9_falsy_field_400 envW
    [("face_url", .str ""), ("shape_url", .str "https://x/b.jpg"),
     ("color_url", .str "https://x/c.jpg")] stInit (.str "")
    (Or.inl rfl) rfl (by show (100 : Nat) ≤ MEMORY_THRESHOLD_MB; decide)

/-- Counterexample to claim C9 as stated: with resident memory over the
threshold, a request with a falsy-present `face_url` is never answered —
the guard kills the process before validation, so no 400 is returned. -/
theorem c9_counterexample :
    (process_hair_swap envK
        (.obj [("face_url", .str ""), ("shape_url", .str "https://x/b.jpg"),
               ("color_url", .str "https://x/c.jpg")]) stInit).1 = Outcome.killed
    ∧ outcomeIs400Error (process_hair_swap envK
        (.obj [("face_url", .str ""), ("shape_url", .str "https://x/b.jpg"),
               ("color_url", .str "https://x/c.jpg")]) stInit).1 = false :=
  ⟨rfl, rfl⟩

/-! ## File-system lemmas for the cleanup claim -/

/-- `os.remove` actually removes the file. -/
theorem isFile_removeFile_self (fs : FS) (n : String) :
    isFile (removeFile fs n) n = false := by
  rw [isFile, removeFile, Bool.eq_false_iff]
  intro h
  rw [List.any_eq_true] at h
  obtain ⟨e, he, hp⟩ := h
  have h1 : e.1 ≠ n := by simpa using (List.mem_filter.mp he).2
  exact h1 (by simpa using hp)

/-- `os.remove` creates no file. -/
theorem isFile_removeFile_mono (fs : FS) (n s : String)
    (h : isFile (removeFile fs n) s = true) : isFile fs s = true := by
  rw [isFile, removeFile, List.any_eq_true] at h
  rw [isFile, List.any_eq_true]
  obtain ⟨e, he, hp⟩ := h
  exact ⟨e, (List.mem_filter.mp he).1, hp⟩

/-- One cleanup step creates no file. -/
theorem isFile_cleanupOne_mono (fs : FS) (p : Json) (s : String)
    (h : isFile (cleanupOne fs p).1 s = true) : isFile fs s = true := by
  cases p with
  | str ps =>
      simp only [cleanupOne] at h
      split at h
      · exact isFile_removeFile_mono fs ps s h
      · exact h
  | null => exact h
  | bool b =>
      simp only [cleanupOne] at h
      split at h <;> exact h
  | num n =>
      simp only [cleanupOne] at h
      split at h <;> exact h
  | arr items =>
      simp only [cleanupOne] at h
      split at h <;> exact h
  | obj kvs =>
      simp only [cleanupOne] at h
      split at h <;> exact h

/-- The whole cleanup loop creates no file, whether or not it raises. -/
theorem isFile_cleanupAll_mono (paths : List Json) (s : String) :
    ∀ fs, isFile (cleanupAll fs paths).1 s = true → isFile fs s = true := by
  induction paths with
  | nil => intro fs h; exact h
  | cons p rest ih =>
      intro fs h
      simp only [cleanupAll] at h
      split at h
      · next fs2 heq =>
          have h2 := ih fs2 h
          have h3 : fs2 = (cleanupOne fs p).1 := by rw [heq]
          rw [h3] at h2
          exact isFile_cleanupOne_mono fs p s h2
      · next fs2 e heq =>
          have h3 : fs2 = (cleanupOne fs p).1 := by rw [heq]
          exact isFile_cleanupOne_mono fs p s (h3 ▸ h)

/-- Cleaning a non-empty string path makes it absent. -/
theorem cleanupOne_self_false (fs : FS) (s : String) (hs : s ≠ "") :
    isFile (cleanupOne fs (.str s)).1 s = false := by
  simp only [cleanupOne]
  by_cases hf : isFile fs s = true
  · rw [if_pos (by simp [hf, hs])]
    exact isFile_removeFile_self fs s
  · have hf2 : isFile fs s = false := by simpa using hf
    rw [if_neg (by simp [hf2])]
    exact hf2

/-- A cleanup loop that completes without raising removes every
non-empty string path it was given. -/
theorem cleanupAll_removes (paths : List Json) (s : String) (hs : s ≠ "") :
    ∀ fs, (cleanupAll fs paths).2 = none → Json.str s ∈ paths →
      isFile (cleanupAll fs paths).1 s = false := by
  induction paths with
  | nil => intro fs hdone h; cases h
  | cons p rest ih =>
      intro fs hdone hmem
      rcases hone : cleanupOne fs p with ⟨fs2, err⟩
      cases err with
      | some e =>
          have hstep : cleanupAll fs (p :: rest) = (fs2, some e) := by
            simp [cleanupAll, hone]
          rw [hstep] at hdone
          exact absurd hdone (by simp)
      | none =>
          have hstep : cleanupAll fs (p :: rest) = cleanupAll fs2 rest := by
            simp [cleanupAll, hone]
          rw [hstep] at hdone ⊢
          rcases List.mem_cons.mp hmem with heq | hmem2
          · cases heq
            have hfs2 : isFile fs2 s = false := by
              have h3 : fs2 = (cleanupOne fs (.str s)).1 := by rw [hone]
              rw [h3]
              exact cleanupOne_self_false fs s hs
            by_contra hcon
            have h1 : isFile (cleanupAll fs2 rest).1 s = true := by simpa using hcon
            have h2 := isFile_cleanupAll_mono rest s fs2 h1
            rw [hfs2] at h2
            cases h2
          · exact ih fs2 hdone hmem2

/-- Claim C3 (amended): every artifact recorded in the shared
`local_files` list (the remote-call output files and the final swap
artifact) is deleted by the `finally` block before the response is
sent, on success and failure paths alike; the intermediate resized file
`temp_resized.jpg`, however, is not tracked in `local_files` — it is
deleted by `download_resize_upload` itself only when that function
completes (in particular it is gone whenever the function returns
successfully), and it leaks when the upload step inside it fails. -/
theorem c3_cleanup (env : Env) (data : Json) (st0 : St) :
    (st0.localFiles = [] →
      ∀ status body, (process_hair_swap env data st0).1 = .resp status body →
      ∀ s, s ≠ "" → Json.str s ∈ (process_hair_swap env data st0).2.localFiles →
      isFile (process_hair_swap env data st0).2.fs s = false)
    ∧ (∀ url st r st2, download_resize_upload env url st = (.ok r, st2) →
      isFile st2.fs "temp_resized.jpg" = false) := by
  constructor
  · intro h0 status body hresp s hs hmem
    rcases hrun : process_hair_swap env data st0 with ⟨out, stF⟩
    rw [hrun] at hresp hmem
    dsimp only at hresp hmem ⊢
    unfold process_hair_swap at hrun
    split at hrun
    · next e st1 heq =>
        injection hrun with ho hst
        subst ho
        simp at hresp
    · next u st1 heq =>
        split at hrun
        · next kvs =>
            dsimp only at hrun
            split at hrun
            · injection hrun with ho hst
              subst hst
              have hst1 : st1 = { st0 with guardCount := st0.guardCount + 1 } :=
                (congrArg Prod.snd heq).symm.trans (guard_state env st0)
              rw [hst1] at hmem
              dsimp only at hmem
              rw [h0] at hmem
              cases hmem
            · split at hrun
              · next v st2 heq2 =>
                  unfold finishResponse at hrun
                  split at hrun
                  · next fs2 heqc =>
                      injection hrun with ho hst
                      subst hst
                      have hdone : (cleanupAll st2.fs st2.localFiles).2 = none := by
                        rw [heqc]
                      have h1 := cleanupAll_removes st2.localFiles s hs st2.fs hdone hmem
                      rw [heqc] at h1
                      exact h1
                  · next fs2 e2 heqc =>
                      injection hrun with ho hst
                      subst ho
                      simp at hresp
              · next e st2 heq2 =>
                  unfold finishResponse at hrun
                  split at hrun
                  · next fs2 heqc =>
                      injection hrun with ho hst
                      subst hst
                      have hdone : (cleanupAll st2.fs st2.localFiles).2 = none := by
                        rw [heqc]
                      have h1 := cleanupAll_removes st2.localFiles s hs st2.fs hdone hmem
                      rw [heqc] at h1
                      exact h1
                  · next fs2 e2 heqc =>
                      injection hrun with ho hst
                      subst ho
                      simp at hresp
              · next st2 heq2 =>
                  injection hrun with ho hst
                  subst ho
                  simp at hresp
        · next other hno =>
            injection hrun with ho hst
            subst ho
            simp at hresp
  · intro url st r st2 h
    unfold download_resize_upload at h
    split at h
    · next u =>
        split at h
        · next e heq => simp at h
        · next resp heq =>
            split at h
            · simp at h
            · next img heq2 =>
                split at h
                · next e heq3 => simp at h
                · next uresp heq3 =>
                    split at h
                    · next e heq4 => simp at h
                    · next uurl heq4 =>
                        injection h with h1 h2
                        subst h2
                        exact isFile_removeFile_self _ _
    · next other hno => simp at h

/-- Witness for C3's theorem: in the all-success run, the tracked
remote-resize output file is gone from the file system when the
response is formed. -/
theorem c3_cleanup_witness :
    isFile (process_hair_swap envW dataW stInit).2.fs "out/resize_inner.png" = false :=
  (c3_cleanup envW dataW stInit).1 rfl 200
    (.obj [("result_url", .str "https://tmpfiles.org/dl/123/f.jpg")]) rfl
    "out/resize_inner.png" (by decide) (List.Mem.head _)

/-- Counterexample to claim C3 as stated: when the upload endpoint
answers HTTP 500, the handler still sends a 500 response, but the
intermediate resized file `temp_resized.jpg` — created during
preprocessing — is left on disk: it is neither tracked in `local_files`
nor removed on this failure path. -/
theorem c3_counterexample :
    (process_hair_swap envLeak dataW stInit).1
        = .resp 500 (.obj [("error", .str "Upload failed: 500: oops")])
    ∧ stInit.fs = []
    ∧ isFile (process_hair_swap envLeak dataW stInit).2.fs "temp_resized.jpg" = true :=
  ⟨rfl, rfl, rfl⟩

/-! ## Which calls a request records, and the swap call's parameters -/

/-- A recorded call is consistent with the request body `kvs`: if it is
the swap call, its keyword parameters are exactly those `swapParams`
computes from the body (any other kind of call is unconstrained). -/
@[simp] def SwapCallOk (kvs : List (String × Json)) : CallRec → Prop
  | .swap _ _ _ blending poisson_iters poisson_erosion =>
      swapParams kvs = .ok (blending, poisson_iters, poisson_erosion)
  | _ => True

/-- Membership in the calls of `recordCall`. -/
theorem mem_calls_recordCall {r x : CallRec} {st : St} (h : r ∈ (recordCall st x).calls) :
    r = x ∨ r ∈ st.calls := by
  simpa [recordCall] using h

/-- `ensure_memory_or_restart` records no call. -/
theorem guard_calls (env : Env) (st : St) :
    (ensure_memory_or_restart env st).2.calls = st.calls := by
  rw [guard_state]

/-- The `finally` block records no call. -/
theorem finishResponse_calls (o : Outcome) (st : St) :
    (finishResponse o st).2.calls = st.calls := by
  unfold finishResponse
  split <;> rfl

/-- Every call `download_resize_upload` adds is a fetch or an upload,
never the swap. -/
theorem dru_calls_ok (env : Env) (url : Json) (st : St) (kvs : List (String × Json)) :
    ∀ r ∈ (download_resize_upload env url st).2.calls, r ∈ st.calls ∨ SwapCallOk kvs r := by
  intro r hr
  unfold download_resize_upload at hr
  repeat' split at hr
  all_goals simp only [recordCall, List.mem_cons] at hr
  all_goals aesop

/-- Every call `upload_local_file` adds is an upload, never the swap. -/
theorem ulf_calls_ok (env : Env) (p : Json) (st : St) (kvs : List (String × Json)) :
    ∀ r ∈ (upload_local_file env p st).2.calls, r ∈ st.calls ∨ SwapCallOk kvs r := by
  intro r hr
  unfold upload_local_file at hr
  repeat' split at hr
  all_goals simp only [recordCall, List.mem_cons] at hr
  all_goals aesop

/-- Every call `process_image` adds is a fetch, an upload or a
resize/align call, never the swap. -/
theorem process_image_calls_ok (env : Env) (url : Json) (api : String) (st : St)
    (kvs : List (String × Json)) :
    ∀ r ∈ (process_image env url api st).2.calls, r ∈ st.calls ∨ SwapCallOk kvs r := by
  intro r hr
  unfold process_image at hr
  split at hr
  · next e stx heq =>
      have hc : stx.calls = st.calls := by
        have h2 := congrArg (fun p => p.2.calls) heq
        simpa [guard_calls] using h2.symm
      rw [hc] at hr
      exact Or.inl hr
  · next u stx heq =>
      have hc : stx.calls = st.calls := by
        have h2 := congrArg (fun p => p.2.calls) heq
        simpa [guard_calls] using h2.symm
      split at hr
      · next e sty heq2 =>
          have h3 : sty.calls = (download_resize_upload env url stx).2.calls := by
            rw [heq2]
          rw [h3] at hr
          rcases dru_calls_ok env url stx kvs r hr with h | h
          · rw [hc] at h
            exact Or.inl h
          · exact Or.inr h
      · next resized sty heq2 =>
          have h3 : sty.calls = (download_resize_upload env url stx).2.calls := by
            rw [heq2]
          split at hr
          · next ru =>
              split at hr
              · next e heq3 =>
                  rcases mem_calls_recordCall hr with rfl | h
                  · exact Or.inr trivial
                  · rw [h3] at h
                    rcases dru_calls_ok env url stx kvs r h with h2 | h2
                    · rw [hc] at h2
                      exact Or.inl h2
                    · exact Or.inr h2
              · next path heq3 =>
                  rcases ulf_calls_ok env (.str path) _ kvs r hr with h | h
                  · rcases mem_calls_recordCall h with rfl | h2
                    · exact Or.inr trivial
                    · rw [h3] at h2
                      rcases dru_calls_ok env url stx kvs r h2 with h4 | h4
                      · rw [hc] at h4
                        exact Or.inl h4
                      · exact Or.inr h4
                  · exact Or.inr h
          · next hnot =>
              rw [h3] at hr
              rcases dru_calls_ok env url stx kvs r hr with h | h
              · rw [hc] at h
                exact Or.inl h
              · exact Or.inr h

/-- Every call the `try` body adds is consistent with the request body:
in particular its unique swap call carries exactly the parameters
`swapParams` computes. -/
theorem tryBody_calls_ok (env : Env) (kvs : List (String × Json)) (f s c : Json) (st : St) :
    ∀ r ∈ (tryBody env kvs f s c st).2.calls, r ∈ st.calls ∨ SwapCallOk kvs r := by
  intro r hr
  unfold tryBody at hr
  split at hr
  · next e st1 heq =>
      have h1 : st1.calls = (process_image env f "/resize_inner" st).2.calls := by rw [heq]
      rw [h1] at hr
      exact process_image_calls_ok env f _ st kvs r hr
  · next v1 st1 heq =>
      have h1 : st1.calls = (process_image env f "/resize_inner" st).2.calls := by rw [heq]
      split at hr
      · next e st2 heq2 =>
          have h2 : st2.calls = (process_image env s "/resize_inner_1" st1).2.calls := by
            rw [heq2]
          rw [h2] at hr
          rcases process_image_calls_ok env s _ st1 kvs r hr with h | h
          · rw [h1] at h
            exact process_image_calls_ok env f _ st kvs r h
          · exact Or.inr h
      · next v2 st2 heq2 =>
          have h2 : st2.calls = (process_image env s "/resize_inner_1" st1).2.calls := by
            rw [heq2]
          have back2 : r ∈ st2.calls → r ∈ st.calls ∨ SwapCallOk kvs r := by
            intro h
            rw [h2] at h
            rcases process_image_calls_ok env s _ st1 kvs r h with h | h
            · rw [h1] at h
              exact process_image_calls_ok env f _ st kvs r h
            · exact Or.inr h
          split at hr
          · next e st3 heq3 =>
              have h3 : st3.calls = (process_image env c "/resize_inner_2" st2).2.calls := by
                rw [heq3]
              rw [h3] at hr
              rcases process_image_calls_ok env c _ st2 kvs r hr with h | h
              · exact back2 h
              · exact Or.inr h
          · next v3 st3 heq3 =>
              have h3 : st3.calls = (process_image env c "/resize_inner_2" st2).2.calls := by
                rw [heq3]
              have back3 : r ∈ st3.calls → r ∈ st.calls ∨ SwapCallOk kvs r := by
                intro h
                rw [h3] at h
                rcases process_image_calls_ok env c _ st2 kvs r h with h | h
                · exact back2 h
                · exact Or.inr h
              split at hr
              · next e st4 heq4 =>
                  have h4 : st4.calls = st3.calls := by
                    have hx := congrArg (fun p => p.2.calls) heq4
                    simpa [guard_calls] using hx.symm
                  rw [h4] at hr
                  exact back3 hr
              · next u st4 heq4 =>
                  have h4 : st4.calls = st3.calls := by
                    have hx := congrArg (fun p => p.2.calls) heq4
                    simpa [guard_calls] using hx.symm
                  have back4 : r ∈ st4.calls → r ∈ st.calls ∨ SwapCallOk kvs r := by
                    intro h
                    rw [h4] at h
                    exact back3 h
                  split at hr
                  · next fu su cu =>
                      split at hr
                      · next e heq5 => exact back4 hr
                      · next trip heq5 =>
                          split at hr
                          · next e heq6 =>
                              rcases mem_calls_recordCall hr with rfl | h
                              · exact Or.inr heq5
                              · exact back4 h
                          · next pr heq6 =>
                              split at hr
                              · next e heq7 =>
                                  rcases mem_calls_recordCall hr with rfl | h
                                  · exact Or.inr heq5
                                  · exact back4 h
                              · next sw heq7 =>
                                  rcases ulf_calls_ok env sw _ kvs r hr with h | h
                                  · rcases mem_calls_recordCall h with rfl | h2
                                    · exact Or.inr heq5
                                    · exact back4 h2
                                  · exact Or.inr h
                  · next => exact back4 hr

/-- Claim C8: every swap call a request records carries exactly the
parameters computed on lines 131-133 — `blending` is the request's
value with default `"Article"`, and the two Poisson parameters are the
`int(...)` conversions of the request's values with defaults 2500 and
100; in particular, when the three optional fields are absent the swap
is invoked with `"Article"`, 2500 and 100. -/
theorem c8_swap_call_params (env : Env) (kvs : List (String × Json)) (st0 : St) :
    (∀ r ∈ (process_hair_swap env (.obj kvs) st0).2.calls,
        r ∉ st0.calls → SwapCallOk kvs r)
    ∧ (∀ b pi pe, swapParams kvs = .ok (b, pi, pe) →
        b = (kvs.lookup "blending").getD (.str "Article")
        ∧ pyInt ((kvs.lookup "poisson_iters").getD (.num 2500)) = .ok pi
        ∧ pyInt ((kvs.lookup "poisson_erosion").getD (.num 100)) = .ok pe)
    ∧ (kvs.lookup "blending" = none → kvs.lookup "poisson_iters" = none →
        kvs.lookup "poisson_erosion" = none →
        swapParams kvs = .ok (.str "Article", 2500, 100)) := by
  refine ⟨?_, ?_, ?_⟩
  · intro r hr hnot
    rcases hrun : process_hair_swap env (.obj kvs) st0 with ⟨out, stF⟩
    rw [hrun] at hr
    dsimp only at hr
    unfold process_hair_swap at hrun
    split at hrun
    · next e st1 heq =>
        injection hrun with ho hst
        subst hst
        have hc : st1.calls = st0.calls := by
          have hx := congrArg (fun p => p.2.calls) heq
          simpa [guard_calls] using hx.symm
        rw [hc] at hr
        exact absurd hr hnot
    · next u st1 heq =>
        have hc : st1.calls = st0.calls := by
          have hx := congrArg (fun p => p.2.calls) heq
          simpa [guard_calls] using hx.symm
        dsimp only at hrun
        split at hrun
        · injection hrun with ho hst
          subst hst
          rw [hc] at hr
          exact absurd hr hnot
        · split at hrun
          · next v st2 heq2 =>
              have hstF : stF.calls = st2.calls := by
                have hx := congrArg (fun p => p.2.calls) hrun
                simpa [finishResponse_calls] using hx.symm
              rw [hstF] at hr
              have h2 : st2.calls
                  = (tryBody env kvs ((kvs.lookup "face_url").getD .null)
                      ((kvs.lookup "shape_url").getD .null)
                      ((kvs.lookup "color_url").getD .null)
                      { st1 with localFiles := [] }).2.calls := by
                rw [heq2]
              rw [h2] at hr
              rcases tryBody_calls_ok env kvs _ _ _ _ r hr with h | h
              · rw [show ({ st1 with localFiles := [] } : St).calls = st1.calls from rfl, hc] at h
                exact absurd h hnot
              · exact h
          · next e st2 heq2 =>
              have hstF : stF.calls = st2.calls := by
                have hx := congrArg (fun p => p.2.calls) hrun
                simpa [finishResponse_calls] using hx.symm
              rw [hstF] at hr
              have h2 : st2.calls
                  = (tryBody env kvs ((kvs.lookup "face_url").getD .null)
                      ((kvs.lookup "shape_url").getD .null)
                      ((kvs.lookup "color_url").getD .null)
                      { st1 with localFiles := [] }).2.calls := by
                rw [heq2]
              rw [h2] at hr
              rcases tryBody_calls_ok env kvs _ _ _ _ r hr with h | h
              · rw [show ({ st1 with localFiles := [] } : St).calls = st1.calls from rfl, hc] at h
                exact absurd h hnot
              · exact h
          · next st2 heq2 =>
              injection hrun with ho hst
              subst hst
              have h2 : st2.calls
                  = (tryBody env kvs ((kvs.lookup "face_url").getD .null)
                      ((kvs.lookup "shape_url").getD .null)
                      ((kvs.lookup "color_url").getD .null)
                      { st1 with localFiles := [] }).2.calls := by
                rw [heq2]
              rw [h2] at hr
              rcases tryBody_calls_ok env kvs _ _ _ _ r hr with h | h
              · rw [show ({ st1 with localFiles := [] } : St).calls = st1.calls from rfl, hc] at h
                exact absurd h hnot
              · exact h
  · intro b pi pe h
    unfold swapParams at h
    simp only [bind, Except.bind, pure, Except.pure] at h
    split at h
    · next e heq1 => simp at h
    · next n1 heq1 =>
        split at h
        · next e heq2 => simp at h
        · next n2 heq2 =>
            simp only [Except.ok.injEq, Prod.mk.injEq] at h
            obtain ⟨hb, hpi, hpe⟩ := h
            exact ⟨hb.symm, hpi ▸ heq1, hpe ▸ heq2⟩
  · intro h1 h2 h3
    unfold swapParams
    simp [h1, h2, h3, pyInt, bind, Except.bind, pure, Except.pure]

/-- Witness for C8's theorem: a body without the optional fields gives
the default swap parameters. -/
theorem c8_swap_call_params_witness :
    swapParams [("face_url", Json.str "https://x/a.jpg")]
      = .ok (.str "Article", 2500, 100) :=
  (c8_swap_call_params envW [("face_url", Json.str "https://x/a.jpg")] stInit).2.2 rfl rfl rfl

/-- Witness for C7's theorem: a concrete already-normalized
direct-download URL is returned unchanged. -/
theorem c7_normalize_idempotent_witness :
    normalizeUrl "https://tmpfiles.org/dl/123/f.jpg" = "https://tmpfiles.org/dl/123/f.jpg" :=
  c7_normalize_idempotent.2 "https://tmpfiles.org/dl/123/f.jpg" rfl
